import Mathlib

/-!
Verification of the data-transformation core of the remarkable-gardens
dashboard (`remarkable_gardens.py`): the filter applied by the two select
boxes (lines 69-72), the distinct-types list feeding the first select box
(lines 52-54), the per-department aggregation merged with the department
boundaries (lines 100-103), and the map centers (lines 81 and 104).

Modelling choices:
- a pandas DataFrame of gardens is a `List Garden`; the GeoDataFrame of
  department boundaries is a `List Dpt` (geometry kept as an abstract
  string, its contents are never inspected by the logic under study);
- latitudes and longitudes are rationals; the mean of an empty column,
  which pandas reports as NaN, is modelled as `none`;
- `Series.str.contains` of line 70 keeps its pandas default `regex=True`:
  the selector is a regular-expression pattern searched anywhere in the
  `types` field. The matcher `strContainsRe` models the fragment of
  regular expressions built from literal characters and the dot wildcard;
  every theorem evaluates it only on patterns inside that fragment
  (metacharacter-free patterns, or the dot-wildcard counterexample of
  claim C1). Patterns using other constructs — quantifiers, classes,
  groups, alternation, or invalid patterns raising `re.error` — are
  outside the model. Literal substring containment, the policy the spec
  asserts, is the separate definition `strContains`, compared with the
  regex behavior in claim C1;
- `Series.unique` and Python `set` dedup are modelled by `List.dedup`,
  a canonical duplicate-free representative (iteration order of a Python
  set is unspecified; no claim under study depends on the order).
-/

namespace RemarkableGardens

/-- One row of the gardens CSV after the column renaming of line 44. -/
structure Garden where
  name : String
  description : String
  department : String
  region : String
  types : String
  latitude : ℚ
  longitude : ℚ
  site : String
deriving DecidableEq, Repr

/-- One feature of `departements.geojson` restricted to name and geometry
(line 49). -/
structure Dpt where
  nom : String
  geometry : String
deriving DecidableEq, Repr

/-- One row of the merged aggregation of lines 100-103: department name,
the `size` column renamed to `Number of gardens`, and the geometry. -/
structure AggRow where
  department : String
  numGardens : Nat
  geometry : String
deriving DecidableEq, Repr

/-- Does `pat` occur at the very start of `text` (on character lists)? -/
def hasPre : List Char → List Char → Bool
  | [], _ => true
  | _ :: _, [] => false
  | c :: cs, x :: xs => c == x && hasPre cs xs

/-- Does `pat` occur anywhere inside `text` (on character lists)? -/
def hasSub (pat : List Char) : List Char → Bool
  | [] => pat.isEmpty
  | x :: xs => hasPre pat (x :: xs) || hasSub pat xs

/-- Literal substring containment on strings: the matching policy the
spec asserts for the type filter (its section 4.2). Compared with the
actual regex behavior of line 70 in claim C1. -/
def strContains (s pat : String) : Bool :=
  hasSub pat.data s.data

/-- The characters that are special in a Python regular expression (the
braces and the backslash written by code point). -/
def regexMetachars : List Char :=
  ['.', '^', '$', '*', '+', '?', Char.ofNat 123, Char.ofNat 125,
   '[', ']', Char.ofNat 92, '|', '(', ')']

/-- Regex match of `pat` at the very start of `text`, for the fragment of
patterns made of literal characters and the dot wildcard: a dot matches
any character, every other character matches itself. -/
def hasPreRe : List Char → List Char → Bool
  | [], _ => true
  | _ :: _, [] => false
  | p :: ps, x :: xs => (p == '.' || p == x) && hasPreRe ps xs

/-- Regex search of `pat` anywhere in `text` (the `re.search` semantics
of `Series.str.contains`), for the same fragment. -/
def hasSubRe (pat : List Char) : List Char → Bool
  | [] => pat.isEmpty
  | x :: xs => hasPreRe pat (x :: xs) || hasSubRe pat xs

/-- Models `Series.str.contains` of line 70 with the pandas default
`regex=True`: the selector is a regular-expression pattern searched
anywhere in the field. Modelled on the fragment of patterns built from
literal characters and the dot wildcard; patterns using other regex
constructs (quantifiers, classes, groups, alternation, invalid patterns
raising `re.error`) are outside the model, and every theorem evaluates
this matcher only on patterns inside the fragment. -/
def strContainsRe (s pat : String) : Bool :=
  hasSubRe pat.data s.data

/-- Lines 69-72: the two sequential filters driven by the select boxes.
When the type selector is not `All`, keep gardens whose `types` field
matches the selector as a regex pattern searched anywhere in the field;
when the department selector is not `All`, keep gardens whose department
equals it exactly. -/
def filterGardens (gs : List Garden) (t d : String) : List Garden :=
  let gs1 := if t = "All" then gs else gs.filter (fun g => strContainsRe g.types t)
  if d = "All" then gs1 else gs1.filter (fun g => g.department == d)

/-- Lines 52-54: split every distinct value of the `types` column on the
pipe character, flatten, deduplicate (Python `set`), and insert `All` at
position 0. -/
def uniqueTypes (gs : List Garden) : List String :=
  let perValue := ((gs.map (fun g => g.types)).dedup).map (fun t => t.splitOn "|")
  "All" :: perValue.flatten.dedup

/-- Line 100: `groupby('Department').size()` — one row per distinct
department of `gs`, carrying the number of gardens of that department. -/
def groupByDept (gs : List Garden) : List (String × Nat) :=
  ((gs.map (fun g => g.department)).dedup).map
    (fun d => (d, (gs.filter (fun g => g.department == d)).length))

/-- Line 102: `dpts_data.merge(gardens_per_dpt, left_on = "nom",
right_on = "Department")` followed by the column selection of line 103 —
an inner join: for each boundary, every group row with a matching name. -/
def mergeDpt (dpts : List Dpt) (groups : List (String × Nat)) : List AggRow :=
  (dpts.map (fun b =>
    (groups.filter (fun r => r.1 == b.nom)).map
      (fun r => AggRow.mk r.1 r.2 b.geometry))).flatten

/-- Lines 100-103 end to end: aggregate the (filtered) gardens per
department and join the counts to the boundary geometries by name. -/
def gardensPerDpt (gs : List Garden) (dpts : List Dpt) : List AggRow :=
  mergeDpt dpts (groupByDept gs)

/-- Mean of a list of rationals; `none` on the empty list, modelling the
NaN that pandas returns for the mean of an empty column. -/
def meanOpt (xs : List ℚ) : Option ℚ :=
  if xs.isEmpty then none else some (xs.sum / (xs.length : ℚ))

/-- Line 81: the center of the first map, the mean latitude and mean
longitude of the current `gardens` collection. -/
def map1Center (gs : List Garden) : Option ℚ × Option ℚ :=
  (meanOpt (gs.map (fun g => g.latitude)), meanOpt (gs.map (fun g => g.longitude)))

/-- Line 104: the center of the second map, computed by the same
expression as line 81 from the same `gardens` variable. -/
def map2Center (gs : List Garden) : Option ℚ × Option ℚ :=
  (meanOpt (gs.map (fun g => g.latitude)), meanOpt (gs.map (fun g => g.longitude)))

/-- The script order: `gardens` is reassigned by the filter of lines 69-72
and both map centers are then computed from the filtered collection. -/
def appCenters (gs : List Garden) (t d : String) :
    (Option ℚ × Option ℚ) × (Option ℚ × Option ℚ) :=
  let filtered := filterGardens gs t d
  (map1Center filtered, map2Center filtered)

/-- Intersection of two garden collections (the first list restricted to
members of the second). -/
def gardenInter (xs ys : List Garden) : List Garden :=
  xs.filter (fun x => decide (x ∈ ys))

/-! ### Helper lemmas -/

/-- With no selector active, lines 69-72 leave the collection untouched. -/
theorem filterGardens_all_all (gs : List Garden) : filterGardens gs "All" "All" = gs := by
  simp [filterGardens]

/-- Normal form of the filter of lines 69-72 as a single `List.filter`. -/
theorem filterGardens_eq_filter (gs : List Garden) (t d : String) :
    filterGardens gs t d =
      gs.filter (fun g =>
        (decide (t = "All") || strContainsRe g.types t) &&
        (decide (d = "All") || g.department == d)) := by
  unfold filterGardens
  by_cases ht : t = "All" <;> by_cases hd : d = "All" <;>
    simp [ht, hd, List.filter_filter, Bool.and_comm]

/-- On a metacharacter-free pattern the fragment regex matcher anchored
at the head of the text degenerates to literal prefix matching. -/
theorem hasPreRe_eq (pat : List Char) (h : ∀ c ∈ pat, c ∉ regexMetachars) :
    ∀ text, hasPreRe pat text = hasPre pat text := by
  induction pat with
  | nil =>
    intro text
    cases text <;> rfl
  | cons p ps ih =>
    intro text
    cases text with
    | nil => rfl
    | cons x xs =>
      have hp : p ∉ regexMetachars := h p (List.mem_cons_self p ps)
      have hdot : (p == '.') = false := by
        cases hb : (p == '.')
        · rfl
        · exact absurd (by rw [show p = '.' from by simpa using hb]; decide) hp
      have h2 : ∀ c ∈ ps, c ∉ regexMetachars := fun c hc => h c (List.mem_cons_of_mem p hc)
      show ((p == '.' || p == x) && hasPreRe ps xs) = ((p == x) && hasPre ps xs)
      rw [hdot, Bool.false_or, ih h2 xs]

/-- On a metacharacter-free pattern the fragment regex search degenerates
to literal substring containment. -/
theorem hasSubRe_eq (pat : List Char) (h : ∀ c ∈ pat, c ∉ regexMetachars) :
    ∀ text, hasSubRe pat text = hasSub pat text := by
  intro text
  induction text with
  | nil => rfl
  | cons x xs ih =>
    show (hasPreRe pat (x :: xs) || hasSubRe pat xs) = (hasPre pat (x :: xs) || hasSub pat xs)
    rw [hasPreRe_eq pat h, ih]

/-- For selectors free of regex metacharacters, the regex search of
line 70 coincides with literal substring containment. -/
theorem strContainsRe_eq (s pat : String) (h : ∀ c ∈ pat.data, c ∉ regexMetachars) :
    strContainsRe s pat = strContains s pat :=
  hasSubRe_eq pat.data h s.data

/-- Filtering a duplicate-free list for one key yields that key alone, or
nothing. -/
theorem nodup_filter_beq (l : List String) (hl : l.Nodup) (n : String) :
    l.filter (fun x => x == n) = if n ∈ l then [n] else [] := by
  induction l with
  | nil => simp
  | cons a l ih =>
    rw [List.nodup_cons] at hl
    by_cases h : a = n
    · subst h
      simp [List.filter_cons, ih hl.2, hl.1]
    · simp [List.filter_cons, h, ih hl.2, List.mem_cons, Ne.symm h]

/-- The group rows of line 100 matching one department name: a single row
carrying the count when the department occurs among the gardens, nothing
otherwise. -/
theorem groupByDept_filter (gs : List Garden) (n : String) :
    (groupByDept gs).filter (fun r => r.1 == n) =
      if n ∈ gs.map (fun g => g.department) then
        [(n, (gs.filter (fun g => g.department == n)).length)]
      else [] := by
  unfold groupByDept
  rw [List.filter_map]
  have hcomp : ((fun r : String × Nat => r.1 == n) ∘
      (fun d => (d, (gs.filter (fun g => g.department == d)).length))) =
      fun d => d == n := rfl
  rw [hcomp, nodup_filter_beq _ (List.nodup_dedup _) n]
  by_cases h : n ∈ gs.map (fun g => g.department)
  · rw [if_pos (List.mem_dedup.mpr h), if_pos h]
    simp
  · rw [if_neg (fun hc => h (List.mem_dedup.mp hc)), if_neg h]
    simp

/-- Summing the counts of the group rows matching one name recovers the
number of gardens of that department. -/
theorem sum_block (gs : List Garden) (n : String) :
    (((groupByDept gs).filter (fun r => r.1 == n)).map (fun r => r.2)).sum =
      (gs.filter (fun g => g.department == n)).length := by
  rw [groupByDept_filter]
  by_cases h : n ∈ gs.map (fun g => g.department)
  · rw [if_pos h]
    simp
  · rw [if_neg h]
    have hnil : gs.filter (fun g => g.department == n) = [] := by
      rw [List.filter_eq_nil_iff]
      intro g hg hgn
      exact h (List.mem_map.mpr ⟨g, hg, by simpa using hgn⟩)
    simp [hnil]

/-- Length of a filter for a disjunction of mutually exclusive predicates
splits as a sum. -/
theorem length_filter_or_disjoint (gs : List Garden) (p q : Garden → Bool)
    (h : ∀ g, p g = true → q g = false) :
    (gs.filter (fun g => p g || q g)).length =
      (gs.filter p).length + (gs.filter q).length := by
  induction gs with
  | nil => simp
  | cons a l ih =>
    by_cases hp : p a = true
    · have hq := h a hp
      simp [List.filter_cons, hp, hq, ih]
      omega
    · have hp2 : p a = false := by simpa using hp
      by_cases hq : q a = true
      · simp [List.filter_cons, hp2, hq, ih]
        omega
      · have hq2 : q a = false := by simpa using hq
        simp [List.filter_cons, hp2, hq2, ih]

/-- Unfolding the join of lines 100-103 one boundary at a time. -/
theorem gardensPerDpt_cons (gs : List Garden) (b : Dpt) (rest : List Dpt) :
    gardensPerDpt gs (b :: rest) =
      (((groupByDept gs).filter (fun r => r.1 == b.nom)).map
        (fun r => AggRow.mk r.1 r.2 b.geometry)) ++ gardensPerDpt gs rest := rfl

/-- Every row of the joined aggregation comes from a boundary whose name
is the department of some garden, and carries the count of that
department. -/
theorem mem_gardensPerDpt (gs : List Garden) (dpts : List Dpt) (r : AggRow)
    (hr : r ∈ gardensPerDpt gs dpts) :
    ∃ b ∈ dpts, r.department = b.nom ∧
      r.department ∈ gs.map (fun g => g.department) ∧
      r.numGardens = (gs.filter (fun g => g.department == r.department)).length := by
  unfold gardensPerDpt mergeDpt at hr
  rw [List.mem_flatten] at hr
  obtain ⟨blk, hblk, hrblk⟩ := hr
  rw [List.mem_map] at hblk
  obtain ⟨b, hb, rfl⟩ := hblk
  rw [groupByDept_filter] at hrblk
  by_cases h : b.nom ∈ gs.map (fun g => g.department)
  · rw [if_pos h] at hrblk
    simp only [List.map_cons, List.map_nil, List.mem_singleton] at hrblk
    subst hrblk
    exact ⟨b, hb, rfl, h, rfl⟩
  · rw [if_neg h] at hrblk
    simp at hrblk

/-- A department occurring among the gardens has at least one garden. -/
theorem one_le_count (gs : List Garden) (n : String)
    (h : n ∈ gs.map (fun g => g.department)) :
    1 ≤ (gs.filter (fun g => g.department == n)).length := by
  rw [List.mem_map] at h
  obtain ⟨g, hg, hgn⟩ := h
  exact List.length_pos_of_mem (List.mem_filter.mpr ⟨hg, by simp [hgn]⟩)

/-- Department names of the joined aggregation are duplicate-free as soon
as the boundary names are. -/
theorem gardensPerDpt_names_nodup (gs : List Garden) : ∀ dpts : List Dpt,
    (dpts.map (fun b => b.nom)).Nodup →
    ((gardensPerDpt gs dpts).map (fun r => r.department)).Nodup := by
  intro dpts
  induction dpts with
  | nil =>
    intro h
    simp [gardensPerDpt, mergeDpt]
  | cons b rest ih =>
    intro h
    rw [List.map_cons, List.nodup_cons] at h
    rw [gardensPerDpt_cons, List.map_append]
    refine List.Nodup.append ?_ (ih h.2) ?_
    · rw [groupByDept_filter]
      by_cases hm : b.nom ∈ gs.map (fun g => g.department)
      · rw [if_pos hm]
        simp
      · rw [if_neg hm]
        simp
    · intro x hx hx2
      apply h.1
      have hx2b : x ∈ rest.map (fun b2 => b2.nom) := by
        rw [List.mem_map] at hx2
        obtain ⟨r, hr, rfl⟩ := hx2
        obtain ⟨b2, hb2, heq, _, _⟩ := mem_gardensPerDpt gs rest r hr
        exact List.mem_map.mpr ⟨b2, hb2, heq.symm⟩
      have hxb : x = b.nom := by
        rw [List.map_map, groupByDept_filter] at hx
        by_cases hm : b.nom ∈ gs.map (fun g => g.department)
        · rw [if_pos hm] at hx
          simpa using hx
        · rw [if_neg hm] at hx
          simp at hx
      rw [← hxb] at *
      exact hx2b

/-! ### Concrete data used by witnesses and counterexamples -/

/-- A garden with the fields that the logic under study never reads set to
fixed fillers. -/
def exGarden (nm dep ty : String) (la lo : ℚ) : Garden :=
  ⟨nm, "desc", dep, "region", ty, la, lo, "site"⟩

def gRhone : Garden := exGarden "g1" "Rhone" "TypeA" 4 5

def gRhone2 : Garden := exGarden "g2" "Rhone" "TypeA|TypeB" 6 7

def gParis : Garden := exGarden "g3" "Paris" "TypeB" 8 9

def threeGardens : List Garden := [gRhone, gRhone2, gParis]

/-- A boundary collection with two features carrying the same name. -/
def dupDpts : List Dpt := [⟨"Rhone", "geo1"⟩, ⟨"Rhone", "geo2"⟩]

/-- A boundary collection with pairwise distinct names. -/
def goodDpts : List Dpt := [⟨"Paris", "geoP"⟩, ⟨"Rhone", "geoR"⟩, ⟨"Ain", "geoA"⟩]

/-- Two gardens such that selecting type `TypeA` together with department
`D2` filters everything out. -/
def emptyFilterGs : List Garden :=
  [exGarden "g1" "D1" "TypeA" 0 0, exGarden "g2" "D2" "TypeB" 1 1]

def w9gs : List Garden := [exGarden "w" "Paris" "Hist" 48 2]

/-! ### Claims -/

/-- Claim C1 (amended: the type selector contains no regex
metacharacter): the filter of lines 69-72 keeps exactly the gardens `g`
of the collection such that the type selector is `All` or the `types`
field of `g` contains the selector as a substring, and the department
selector is `All` or the department of `g` equals it exactly; the two
predicates are combined with AND. Line 70 treats the selector as a
regular expression (the pandas default), which coincides with substring
containment exactly for metacharacter-free selectors. -/
theorem filter_keeps_exactly (gs : List Garden) (t d : String) (g : Garden)
    (ht : ∀ c ∈ t.data, c ∉ regexMetachars) :
    g ∈ filterGardens gs t d ↔
      g ∈ gs ∧ (t = "All" ∨ strContains g.types t = true) ∧
        (d = "All" ∨ g.department = d) := by
  rw [filterGardens_eq_filter]
  simp only [List.mem_filter]
  rw [strContainsRe_eq g.types t ht]
  simp [Bool.and_eq_true, Bool.or_eq_true, decide_eq_true_eq, and_assoc]

/-- Claim C1 counterexample: the selector `Type.A` is a regex pattern
whose dot matches any character, so the program keeps a garden whose
`types` field is `TypeXA` even though `Type.A` is not a substring of
`TypeXA`: the substring characterization fails at this input. -/
theorem filter_substring_cex :
    ¬ ((exGarden "x" "D" "TypeXA" 0 0) ∈
        filterGardens [exGarden "x" "D" "TypeXA" 0 0] "Type.A" "All" ↔
      (exGarden "x" "D" "TypeXA" 0 0) ∈ [exGarden "x" "D" "TypeXA" 0 0] ∧
        ("Type.A" = "All" ∨
          strContains (exGarden "x" "D" "TypeXA" 0 0).types "Type.A" = true) ∧
        ("All" = "All" ∨ (exGarden "x" "D" "TypeXA" 0 0).department = "All")) := by
  decide

/-- Witness for claim C1: the amended theorem at a metacharacter-free
selector pair. -/
theorem filter_keeps_witness :
    (exGarden "w" "Paris" "Hist" 48 2) ∈ filterGardens w9gs "Hist" "Paris" ↔
      (exGarden "w" "Paris" "Hist" 48 2) ∈ w9gs ∧
        ("Hist" = "All" ∨
          strContains (exGarden "w" "Paris" "Hist" 48 2).types "Hist" = true) ∧
        ("Paris" = "All" ∨ (exGarden "w" "Paris" "Hist" 48 2).department = "Paris") :=
  filter_keeps_exactly w9gs "Hist" "Paris" (exGarden "w" "Paris" "Hist" 48 2) (by decide)

/-- Claim C2: filtering with both selectors set to `All` returns the
collection itself, unchanged. -/
theorem filter_all_all_id (gs : List Garden) : filterGardens gs "All" "All" = gs :=
  filterGardens_all_all gs

/-- Claim C3 (amended: boundary names pairwise distinct, as they are in
the department GeoJSON): the per-department counts of lines 100-103 sum to
the number of filtered gardens whose department has a matching boundary. -/
theorem sum_counts_eq_matched (gs : List Garden) (dpts : List Dpt)
    (h : (dpts.map (fun b => b.nom)).Nodup) :
    ((gardensPerDpt gs dpts).map (fun r => r.numGardens)).sum =
      (gs.filter (fun g => dpts.any (fun b => g.department == b.nom))).length := by
  revert h
  induction dpts with
  | nil =>
    intro h
    simp [gardensPerDpt, mergeDpt]
  | cons b rest ih =>
    intro h
    rw [List.map_cons, List.nodup_cons] at h
    rw [gardensPerDpt_cons, List.map_append, List.sum_append]
    have h1 : ((((groupByDept gs).filter (fun r => r.1 == b.nom)).map
        (fun r => AggRow.mk r.1 r.2 b.geometry)).map (fun r => r.numGardens)).sum =
        (gs.filter (fun g => g.department == b.nom)).length := by
      rw [List.map_map]
      exact sum_block gs b.nom
    rw [h1, ih h.2]
    have hdisj : ∀ g : Garden, (g.department == b.nom) = true →
        (rest.any (fun b2 => g.department == b2.nom)) = false := by
      intro g hg
      rw [List.any_eq_false]
      intro b2 hb2 hbg
      apply h.1
      have e2 : g.department = b2.nom := by simpa using hbg
      have e1 : g.department = b.nom := by simpa using hg
      exact List.mem_map.mpr ⟨b2, hb2, by rw [← e2, e1]⟩
    have hcons : (fun g : Garden => (b :: rest).any (fun b2 => g.department == b2.nom)) =
        fun g => (g.department == b.nom) || rest.any (fun b2 => g.department == b2.nom) := by
      funext g
      simp [List.any_cons]
    rw [hcons, length_filter_or_disjoint gs _ _ hdisj]

/-- Claim C3 counterexample: with a garden in department `Rhone` and two
boundary features both named `Rhone`, the inner join duplicates the group
row, so the counts sum to 2 while only one filtered garden has a matching
boundary. -/
theorem sum_counts_cex :
    ¬ (((gardensPerDpt [gRhone] dupDpts).map (fun r => r.numGardens)).sum =
      (([gRhone]).filter (fun g => dupDpts.any (fun b => g.department == b.nom))).length) := by
  decide

/-- Witness for claim C3: the amended theorem applied to three gardens and
three pairwise distinct boundary names. -/
theorem sum_counts_witness :
    ((gardensPerDpt threeGardens goodDpts).map (fun r => r.numGardens)).sum =
      (threeGardens.filter (fun g => goodDpts.any (fun b => g.department == b.nom))).length :=
  sum_counts_eq_matched threeGardens goodDpts (by decide)

/-- Claim C4: every row of the joined aggregation names a department that
both occurs among the (filtered) gardens and has a matching boundary;
departments with zero gardens or without a boundary are absent. -/
theorem join_inner_semantics (gs : List Garden) (dpts : List Dpt) (r : AggRow)
    (hr : r ∈ gardensPerDpt gs dpts) :
    r.department ∈ gs.map (fun g => g.department) ∧
      r.department ∈ dpts.map (fun b => b.nom) := by
  obtain ⟨b, hb, heq, hmem, _⟩ := mem_gardensPerDpt gs dpts r hr
  exact ⟨hmem, List.mem_map.mpr ⟨b, hb, heq.symm⟩⟩

/-- Witness for claim C4: the row for `Rhone` in a concrete aggregation. -/
theorem join_inner_semantics_witness :
    (AggRow.mk "Rhone" 2 "geoR").department ∈ (threeGardens.map (fun g => g.department)) ∧
      (AggRow.mk "Rhone" 2 "geoR").department ∈ (goodDpts.map (fun b => b.nom)) :=
  join_inner_semantics threeGardens goodDpts (AggRow.mk "Rhone" 2 "geoR") (by decide)

/-- Claim C5: filtering with `All`/`All` and then aggregating yields the
same per-department rows as aggregating the loaded collection directly. -/
theorem pipeline_roundtrip (gs : List Garden) (dpts : List Dpt) :
    gardensPerDpt (filterGardens gs "All" "All") dpts = gardensPerDpt gs dpts := by
  rw [filterGardens_all_all]

/-- Claim C6: the filter equals the intersection of the collection
filtered by the type selector alone with the collection filtered by the
department selector alone. -/
theorem filter_intersection (gs : List Garden) (t d : String) :
    filterGardens gs t d =
      gardenInter (filterGardens gs t "All") (filterGardens gs "All" d) := by
  rw [filterGardens_eq_filter gs t d, filterGardens_eq_filter gs t "All",
      filterGardens_eq_filter gs "All" d]
  unfold gardenInter
  simp only [eq_self_iff_true, decide_True, Bool.true_or, Bool.and_true, Bool.true_and]
  rw [List.filter_filter]
  apply List.filter_congr
  intro x hx
  have hmemB : decide (x ∈ gs.filter (fun g => decide (d = "All") || g.department == d)) =
      (decide (d = "All") || x.department == d) := by
    cases hB : (decide (d = "All") || x.department == d)
    · simp [List.mem_filter, hB]
    · simp [List.mem_filter, hB, hx]
  rw [hmemB, Bool.and_comm]

/-- Claim C7: the distinct-types list of lines 52-54 has `All` as its
first element and lists each pipe-separated tag at most once. -/
theorem uniqueTypes_head_nodup (gs : List Garden) :
    (uniqueTypes gs).head? = some "All" ∧ (uniqueTypes gs).tail.Nodup := by
  constructor
  · rfl
  · have htail : (uniqueTypes gs).tail =
        (((gs.map (fun g => g.types)).dedup).map (fun t => t.splitOn "|")).flatten.dedup := rfl
    rw [htail]
    exact List.nodup_dedup _

/-- Claim C8 (code bug): selecting type `TypeA` together with department
`D2` empties the collection, and the map center of line 81 (and line 104)
is then the mean of an empty column — undefined (`none`, the NaN of
pandas), not a defined fallback; folium rejects a NaN location. -/
theorem empty_filter_center_undefined :
    filterGardens emptyFilterGs "TypeA" "D2" = [] ∧
      map1Center (filterGardens emptyFilterGs "TypeA" "D2") = (none, none) ∧
      map2Center (filterGardens emptyFilterGs "TypeA" "D2") = (none, none) := by
  decide

/-- Claim C9: for a non-empty filtered collection, both maps are centered
on the mean latitude and mean longitude of the filtered gardens. -/
theorem centers_mean_of_filtered (gs : List Garden) (t d : String)
    (h : filterGardens gs t d ≠ []) :
    appCenters gs t d =
      ((some ((((filterGardens gs t d).map (fun g => g.latitude)).sum) /
          (((filterGardens gs t d).length : ℚ))),
        some ((((filterGardens gs t d).map (fun g => g.longitude)).sum) /
          (((filterGardens gs t d).length : ℚ)))),
       (some ((((filterGardens gs t d).map (fun g => g.latitude)).sum) /
          (((filterGardens gs t d).length : ℚ))),
        some ((((filterGardens gs t d).map (fun g => g.longitude)).sum) /
          (((filterGardens gs t d).length : ℚ))))) := by
  unfold appCenters map1Center map2Center meanOpt
  simp [List.isEmpty_iff, List.map_eq_nil_iff, h, List.length_map]

/-- Witness for claim C9: a one-garden collection under the identity
filter. -/
theorem centers_mean_witness :
    appCenters w9gs "All" "All" =
      ((some ((((filterGardens w9gs "All" "All").map (fun g => g.latitude)).sum) /
          (((filterGardens w9gs "All" "All").length : ℚ))),
        some ((((filterGardens w9gs "All" "All").map (fun g => g.longitude)).sum) /
          (((filterGardens w9gs "All" "All").length : ℚ)))),
       (some ((((filterGardens w9gs "All" "All").map (fun g => g.latitude)).sum) /
          (((filterGardens w9gs "All" "All").length : ℚ))),
        some ((((filterGardens w9gs "All" "All").map (fun g => g.longitude)).sum) /
          (((filterGardens w9gs "All" "All").length : ℚ))))) :=
  centers_mean_of_filtered w9gs "All" "All" (by decide)

/-- Claim C10 (amended: boundary names pairwise distinct, as they are in
the department GeoJSON): every row of the joined aggregation has a count
of at least 1 and each department name appears at most once. -/
theorem agg_counts_pos_nodup (gs : List Garden) (dpts : List Dpt)
    (h : (dpts.map (fun b => b.nom)).Nodup) :
    (∀ r ∈ gardensPerDpt gs dpts, 1 ≤ r.numGardens) ∧
      ((gardensPerDpt gs dpts).map (fun r => r.department)).Nodup := by
  constructor
  · intro r hr
    obtain ⟨b, hb, heq, hmem, hcnt⟩ := mem_gardensPerDpt gs dpts r hr
    rw [hcnt]
    exact one_le_count gs r.department hmem
  · exact gardensPerDpt_names_nodup gs dpts h

/-- Claim C10 counterexample: two boundary features named `Rhone` put the
department `Rhone` into the joined result twice. -/
theorem agg_counts_cex :
    ¬ ((∀ r ∈ gardensPerDpt [gRhone] dupDpts, 1 ≤ r.numGardens) ∧
      ((gardensPerDpt [gRhone] dupDpts).map (fun r => r.department)).Nodup) := by
  decide

/-- Witness for claim C10: the amended theorem on a concrete collection. -/
theorem agg_counts_witness :
    (∀ r ∈ gardensPerDpt threeGardens goodDpts, 1 ≤ r.numGardens) ∧
      ((gardensPerDpt threeGardens goodDpts).map (fun r => r.department)).Nodup :=
  agg_counts_pos_nodup threeGardens goodDpts (by decide)

end RemarkableGardens
